import Mathlib

/-!
Shallow embedding of the Qbit HTTP/SSE client (`evals/client/http.py`):
the `QbitEvent` record with its `from_sse` constructor and `is_terminal`
predicate, the SSE line-processing loop of `QbitClient.execute` together
with its retry policy, the `execute_simple` wrapper, the `health` check,
and the request-payload construction.

JSON values are modelled by an inductive `Json` type (numbers restricted
to integers, which covers every payload the protocol uses); `json.loads`
is modelled by a recursive-descent parser `Json.parse`.  Python `dict`
objects are association lists without duplicate keys; `dict.pop` is
lookup plus erase.
-/

namespace QbitHttp

/-- A JSON value as produced by `json.loads` (numbers restricted to
integers; objects are association lists in insertion order). -/
inductive Json where
  | null : Json
  | bool (b : Bool) : Json
  | num (n : Int) : Json
  | str (s : String) : Json
  | arr (elems : List Json) : Json
  | obj (pairs : List (String × Json)) : Json

/-- Python `value == "literal"` for a JSON value against a string
constant: true exactly when the value is that string. -/
def Json.eqStr : Json → String → Bool
  | .str s, t => s = t
  | _, _ => false

/-- Python `container.get(key) == "literal"`: `None` (absent key) never
equals a string. -/
def optEqStr : Option Json → String → Bool
  | some v, t => v.eqStr t
  | none, _ => false

/-- A character stripped by Python's `str.strip()` with no argument
(ASCII whitespace; the unicode cases never occur in this protocol). -/
def pyIsSpace (c : Char) : Bool :=
  c = ' ' ∨ c = '\t' ∨ c = '\n' ∨ c = '\r' ∨ c = Char.ofNat 11 ∨ c = Char.ofNat 12

/-- `str.strip()` on a character list: drop whitespace from both ends. -/
def listStrip (cs : List Char) : List Char :=
  ((cs.dropWhile pyIsSpace).reverse.dropWhile pyIsSpace).reverse

/-- Python `s.strip()`. -/
def pyStrip (s : String) : String := String.mk (listStrip s.toList)

/-- Character-list prefix test. -/
def listStarts : List Char → List Char → Bool
  | _, [] => true
  | [], _ :: _ => false
  | c :: cs, p :: ps => c = p && listStarts cs ps

/-- Python `s.startswith(p)`. -/
def pyStarts (s p : String) : Bool := listStarts s.toList p.toList

/-- Python `s[n:]` (drop the first `n` characters). -/
def pyDrop (s : String) (n : Nat) : String := String.mk (s.toList.drop n)

/-- Lookup of a key in a JSON object's association list (`dict.get` /
`dict.__getitem__`). -/
def lookupKey (k : String) : List (String × Json) → Option Json
  | [] => none
  | (k', v) :: rest => if k' = k then some v else lookupKey k rest

/-- Removal of a key from a JSON object's association list (the removal
part of `dict.pop`). -/
def eraseKey (k : String) : List (String × Json) → List (String × Json)
  | [] => []
  | (k', v) :: rest => if k' = k then rest else (k', v) :: eraseKey k rest

/-- Prepend an object member to the members parsed after it, with
Python `dict` duplicate-key semantics: a duplicated key keeps its first
(earliest) position but takes its last value. -/
def consKey (k : String) (v : Json) (ps : List (String × Json)) : List (String × Json) :=
  match lookupKey k ps with
  | some v' => (k, v') :: eraseKey k ps
  | none => (k, v) :: ps

/-- Whitespace skipping for the JSON lexer. -/
def skipWs : List Char → List Char
  | [] => []
  | c :: rest => if c = ' ' ∨ c = '\t' ∨ c = '\n' ∨ c = '\r' then skipWs rest else c :: rest

/-- The character denoted by a backslash escape inside a JSON string. -/
def escChar (c : Char) : Option Char :=
  if c = '"' then some '"'
  else if c = '\\' then some '\\'
  else if c = '/' then some '/'
  else if c = 'n' then some '\n'
  else if c = 't' then some '\t'
  else if c = 'r' then some '\r'
  else if c = 'b' then some (Char.ofNat 8)
  else if c = 'f' then some (Char.ofNat 12)
  else none

/-- Parse the body of a JSON string literal (the opening quote already
consumed); returns the accumulated characters and the remaining input. -/
def parseStringBody : List Char → Option (List Char × List Char)
  | [] => none
  | '"' :: rest => some ([], rest)
  | '\\' :: c :: rest =>
    match escChar c with
    | some e =>
      match parseStringBody rest with
      | some (s, r) => some (e :: s, r)
      | none => none
    | none => none
  | c :: rest =>
    match parseStringBody rest with
    | some (s, r) => some (c :: s, r)
    | none => none

/-- Parse a run of decimal digits into a natural number. -/
def parseDigits : Nat → List Char → Option (Nat × List Char)
  | acc, c :: rest =>
    if c.isDigit then
      match parseDigits (acc * 10 + (c.toNat - 48)) rest with
      | some r => some r
      | none => some (acc * 10 + (c.toNat - 48), rest)
    else none
  | _, [] => none

/-- Parse a (possibly negated) integer literal. -/
def parseIntLit : List Char → Option (Int × List Char)
  | '-' :: rest =>
    match parseDigits 0 rest with
    | some (n, r) => some (-(n : Int), r)
    | none => none
  | cs =>
    match parseDigits 0 cs with
    | some (n, r) => some ((n : Int), r)
    | none => none

/-- A pending task of the recursive-descent JSON parser: one value, the
items of an array (after the opening bracket, known non-empty), or the
members of an object (after the opening brace, known non-empty).  The
parser is defunctionalized this way so that it is a single function
structurally recursive on its fuel. -/
inductive PTask where
  | val (cs : List Char) : PTask
  | arrItems (cs : List Char) : PTask
  | objItems (cs : List Char) : PTask

/-- Fuelled recursive-descent parser.  A `.val` task returns the parsed
value; an `.arrItems` task returns `.arr` of the items up to and
including the closing bracket; an `.objItems` task returns `.obj` of
the members up to and including the closing brace (duplicate keys
follow Python `dict` semantics: the last value wins). -/
def parseGo : Nat → PTask → Option (Json × List Char)
  | 0, _ => none
  | Nat.succ fuel, .val cs =>
    (match skipWs cs with
     | '"' :: rest =>
       (match parseStringBody rest with
        | some (s, r) => some (.str (String.mk s), r)
        | none => none)
     | 't' :: 'r' :: 'u' :: 'e' :: rest => some (.bool true, rest)
     | 'f' :: 'a' :: 'l' :: 's' :: 'e' :: rest => some (.bool false, rest)
     | 'n' :: 'u' :: 'l' :: 'l' :: rest => some (.null, rest)
     | '[' :: rest =>
       (match skipWs rest with
        | ']' :: r => some (.arr [], r)
        | cs' =>
          match parseGo fuel (.arrItems cs') with
          | some (j, r) => some (j, r)
          | none => none)
     | '{' :: rest =>
       (match skipWs rest with
        | '}' :: r => some (.obj [], r)
        | cs' =>
          match parseGo fuel (.objItems cs') with
          | some (j, r) => some (j, r)
          | none => none)
     | cs' =>
       match parseIntLit cs' with
       | some (n, r) => some (.num n, r)
       | none => none)
  | Nat.succ fuel, .arrItems cs =>
    (match parseGo fuel (.val cs) with
     | some (x, r) =>
       (match skipWs r with
        | ',' :: r' =>
          (match parseGo fuel (.arrItems r') with
           | some (.arr xs, r'') => some (.arr (x :: xs), r'')
           | _ => none)
        | ']' :: r' => some (.arr [x], r')
        | _ => none)
     | none => none)
  | Nat.succ fuel, .objItems cs =>
    (match skipWs cs with
     | '"' :: rest =>
       (match parseStringBody rest with
        | some (k, r) =>
          (match skipWs r with
           | ':' :: r' =>
             (match parseGo fuel (.val r') with
              | some (v, r'') =>
                (match skipWs r'' with
                 | ',' :: r3 =>
                   (match parseGo fuel (.objItems r3) with
                    | some (.obj ps, r4) => some (.obj (consKey (String.mk k) v ps), r4)
                    | _ => none)
                 | '}' :: r3 => some (.obj [(String.mk k, v)], r3)
                 | _ => none)
              | none => none)
           | _ => none)
        | none => none)
     | _ => none)

/-- Model of `json.loads`: parse a complete JSON document, requiring the
whole input to be consumed; `none` models a raised `JSONDecodeError`. -/
def Json.parse (s : String) : Option Json :=
  match parseGo (s.length + 1) (.val s.toList) with
  | some (j, r) => if skipWs r = [] then some j else none
  | none => none

/-- Structured representation of an agent event (`QbitEvent`).  The
`event` and `timestamp` fields hold the raw JSON values popped from the
decoded object (Python does not enforce the annotated `str` / `int`
types), and `data` holds the remaining key-value pairs. -/
structure QbitEvent where
  event : Json
  timestamp : Json
  data : List (String × Json)

/-- The body of `QbitEvent.from_sse` after `json.loads` has produced an
object: `event = parsed.pop("event", event_type)`,
`timestamp = parsed.pop("timestamp", 0)`, remainder becomes `data`. -/
def QbitEvent.from_sse_obj (event_type : String) (ps : List (String × Json)) : QbitEvent :=
  { event := (lookupKey "event" ps).getD (.str event_type)
    timestamp := (lookupKey "timestamp" (eraseKey "event" ps)).getD (.num 0)
    data := eraseKey "timestamp" (eraseKey "event" ps) }

/-- `QbitEvent.from_sse`: decode the `data:` payload with `json.loads`
and pop the `event` / `timestamp` fields.  `none` models a raised
exception: either a JSON decode error, or `.pop` on a non-dict value. -/
def QbitEvent.from_sse (event_type : String) (data : String) : Option QbitEvent :=
  match Json.parse data with
  | some (.obj ps) => some (QbitEvent.from_sse_obj event_type ps)
  | _ => none

/-- `QbitEvent.response`: the `response` field of a `completed` event,
`None` otherwise. -/
def QbitEvent.response (e : QbitEvent) : Option Json :=
  if e.event.eqStr "completed" then lookupKey "response" e.data else none

/-- `QbitEvent.is_terminal`: `completed`, `error`, or the
`custom`/`stream_end` server-side workaround. -/
def QbitEvent.is_terminal (e : QbitEvent) : Bool :=
  if e.event.eqStr "completed" || e.event.eqStr "error" then true
  else if e.event.eqStr "custom" && optEqStr (lookupKey "name" e.data) "stream_end" then true
  else false

/-- How the line-processing loop of `QbitClient.execute` left the
stream: `eof` (all lines consumed, generator falls through to its
normal `return`), `terminal` (returned early after a terminal event),
`raised` (an exception escaped while decoding a `data:` payload). -/
inductive StreamEnd where
  | eof : StreamEnd
  | terminal : StreamEnd
  | raised : StreamEnd
deriving DecidableEq

/-- The `async for line in response.aiter_lines()` loop of
`QbitClient.execute`: strip each line, track the current `event_type`,
decode non-empty non-keep-alive `data:` payloads, yield the resulting
events, and stop at the first terminal event.  Returns the yielded
events together with how the loop ended. -/
def processLines : String → List String → List QbitEvent × StreamEnd
  | _, [] => ([], .eof)
  | event_type, line :: rest =>
    let l := pyStrip line
    if l = "" then processLines event_type rest
    else if pyStarts l "event:" then processLines (pyStrip (pyDrop l 6)) rest
    else if pyStarts l "data:" then
      let data := pyStrip (pyDrop l 5)
      if data ≠ "" ∧ data ≠ "keep-alive" then
        match QbitEvent.from_sse event_type data with
        | some e =>
          if e.is_terminal then ([e], .terminal)
          else
            let r := processLines event_type rest
            (e :: r.1, r.2)
        | none => ([], .raised)
      else processLines event_type rest
    else processLines event_type rest

/-- The value of the loop's `event_type` variable after the given lines
(meaningful while the loop has not returned early). -/
def stateAfter : String → List String → String
  | event_type, [] => event_type
  | event_type, line :: rest =>
    let l := pyStrip line
    if l = "" then stateAfter event_type rest
    else if pyStarts l "event:" then stateAfter (pyStrip (pyDrop l 6)) rest
    else stateAfter event_type rest

/-- Modelled from the spec: "the yielded Event's type equals the most
recently seen `event:` line value (or `"message"` if none yet seen this
stream)" — the trimmed value of the last `event:` line, else
`"message"`. -/
def lastEventTypeSpec (lines : List String) : String :=
  ((lines.map pyStrip).filter (fun t => pyStarts t "event:")).foldl
    (fun _ t => pyStrip (pyDrop t 6)) "message"

/-- One attempt of the transport underlying `self.client.stream(...)`:
either the connection fails with an `httpx.RequestError` before anything
is read, or a response arrives with the given status code and body
lines; `midFail` records an `httpx.RequestError` raised by
`aiter_lines` after the listed lines. -/
inductive Attempt where
  | connFail : Attempt
  | stream (status : Nat) (lines : List String) (midFail : Bool) : Attempt

/-- How a call to `execute` ends, seen from the caller. -/
inductive ExecOutcome where
  | normal : ExecOutcome
  | raisedStatus (code : Nat) : ExecOutcome
  | raisedConn : ExecOutcome
  | raisedOther : ExecOutcome
  | stuck : ExecOutcome
deriving DecidableEq

/-- Observable behaviour of one `execute` call: the events yielded to
the caller in order, the durations passed to `asyncio.sleep` in order,
and the final outcome. -/
structure ExecResult where
  events : List QbitEvent
  sleeps : List ℚ
  outcome : ExecOutcome

/-- `httpx.Response.raise_for_status` succeeds exactly on 2xx codes. -/
def is2xx (status : Nat) : Prop := 200 ≤ status ∧ status < 300

instance (status : Nat) : Decidable (is2xx status) := by
  unfold is2xx; infer_instance

/-- The `while retries <= self.max_retries` loop of
`QbitClient.execute`, consuming one transport attempt per iteration.
`retries` is the current value of the retry counter.  A non-2xx status
raises `httpx.HTTPStatusError` at `raise_for_status` (not caught: only
`httpx.RequestError` is).  A connection failure increments the counter,
raises if it exceeded `max_retries`, and otherwise sleeps
`retry_delay * retries` and re-enters the loop.  `.stuck` is the model
artefact for a transport that offers no further attempts. -/
def executeLoop (max_retries : Nat) (retry_delay : ℚ) : Nat → List Attempt → ExecResult
  | _, [] => ⟨[], [], .stuck⟩
  | retries, .connFail :: restA =>
    let r := retries + 1
    if r > max_retries then ⟨[], [], .raisedConn⟩
    else
      let res := executeLoop max_retries retry_delay r restA
      ⟨res.events, retry_delay * r :: res.sleeps, res.outcome⟩
  | retries, .stream status lines midFail :: restA =>
    if is2xx status then
      let p := processLines "message" lines
      match p.2 with
      | .terminal => ⟨p.1, [], .normal⟩
      | .raised => ⟨p.1, [], .raisedOther⟩
      | .eof =>
        if midFail then
          let r := retries + 1
          if r > max_retries then ⟨p.1, [], .raisedConn⟩
          else
            let res := executeLoop max_retries retry_delay r restA
            ⟨p.1 ++ res.events, retry_delay * r :: res.sleeps, res.outcome⟩
        else ⟨p.1, [], .normal⟩
    else ⟨[], [], .raisedStatus status⟩

/-- `QbitClient.execute` as a function of the transport's behaviour:
run the retry loop with the counter starting at `0`. -/
def execute (max_retries : Nat) (retry_delay : ℚ) (attempts : List Attempt) : ExecResult :=
  executeLoop max_retries retry_delay 0 attempts

/-- How a call to `execute_simple` ends, seen from the caller. -/
inductive SimpleResult where
  | ok (response : Json) : SimpleResult
  | execError (message : Option Json) : SimpleResult
  | noCompletion : SimpleResult
  | propagated (o : ExecOutcome) : SimpleResult

/-- The `async for` body of `QbitClient.execute_simple` over the events
it receives: return the `response` field (default `""`) of the first
`completed` event, raise `RuntimeError` on the first `error` event. -/
def simpleOfEvents : List QbitEvent → Option SimpleResult
  | [] => none
  | e :: rest =>
    if e.event.eqStr "completed" then some (.ok ((lookupKey "response" e.data).getD (.str "")))
    else if e.event.eqStr "error" then some (.execError (lookupKey "message" e.data))
    else simpleOfEvents rest

/-- `QbitClient.execute_simple`: drive `execute` and scan its events;
if the iteration is exhausted without a `completed` or `error` event,
either the generator's own exception propagates or the final
`RuntimeError("No completion event received")` is raised. -/
def execute_simple (max_retries : Nat) (retry_delay : ℚ) (attempts : List Attempt) : SimpleResult :=
  let r := execute max_retries retry_delay attempts
  match simpleOfEvents r.events with
  | some s => s
  | none =>
    match r.outcome with
    | .normal => .noCompletion
    | o => .propagated o

/-- Behaviour of the transport under one `GET {base}/health` request. -/
inductive HealthTransport where
  | status (code : Nat) : HealthTransport
  | requestError : HealthTransport

/-- How a call to `health` ends, seen from the caller. -/
inductive HealthResult where
  | ok (healthy : Bool) : HealthResult
  | raisedRuntime : HealthResult
deriving DecidableEq

/-- `QbitClient.health`: the `self.client` property raises
`RuntimeError("Client not initialized...")` when `_client is None`
(outside the `async with` scope); otherwise a 200 response yields
`True`, any other status `False`, and a caught `httpx.RequestError`
yields `False`. -/
def health (clientInitialized : Bool) (t : HealthTransport) : HealthResult :=
  if clientInitialized then
    match t with
    | .status code => .ok (code == 200)
    | .requestError => .ok false
  else .raisedRuntime

/-- The request body built at the top of `QbitClient.execute`:
`payload = {"prompt": prompt}`, then `if timeout_secs:` (Python
truthiness: `None` and `0` are both falsy) append `"timeout_secs"`. -/
def buildPayload (prompt : String) (timeout_secs : Option Int) : List (String × Json) :=
  let payload := [("prompt", Json.str prompt)]
  match timeout_secs with
  | some t => if t ≠ 0 then payload ++ [("timeout_secs", Json.num t)] else payload
  | none => payload

/-- A transport no-op line of the SSE stream: blank after stripping, a
`data:` line whose payload is the keep-alive sentinel, or a line with
any prefix other than `event:` / `data:`. -/
def isNoise (l : String) : Bool :=
  let t := pyStrip l
  t = "" || (pyStarts t "data:" && pyStrip (pyDrop t 5) = "keep-alive") ||
    (!pyStarts t "event:" && !pyStarts t "data:")

/-- `NoiseInsert xs ys` holds when `ys` is `xs` with any number of
transport no-op lines inserted at arbitrary positions. -/
inductive NoiseInsert : List String → List String → Prop where
  | nil : NoiseInsert [] []
  | keep (l : String) {xs ys : List String} :
      NoiseInsert xs ys → NoiseInsert (l :: xs) (l :: ys)
  | noise (n : String) {xs ys : List String} :
      isNoise n = true → NoiseInsert xs ys → NoiseInsert xs (n :: ys)

/-- The example scenario stream from the spec: a `started` frame, a
`text_delta` frame and a `completed` frame. -/
def exampleLines : List String :=
  ["event: started",
   "data: \x7b\"event\":\"started\",\"timestamp\":1000,\"turn_id\":\"t1\"\x7d",
   "event: text_delta",
   "data: \x7b\"timestamp\":1001,\"delta\":\"4\"\x7d",
   "event: completed",
   "data: \x7b\"timestamp\":1002,\"response\":\"4\",\"duration_ms\":2\x7d"]

/-! ### Branch-selection lemmas for the line loop -/

theorem processLines_nil (et : String) : processLines et [] = ([], .eof) := rfl

theorem processLines_blank (et line : String) (rest : List String)
    (h : pyStrip line = "") :
    processLines et (line :: rest) = processLines et rest := by
  simp [processLines, h]

theorem processLines_event (et line : String) (rest : List String)
    (h : pyStrip line ≠ "") (he : pyStarts (pyStrip line) "event:" = true) :
    processLines et (line :: rest) =
      processLines (pyStrip (pyDrop (pyStrip line) 6)) rest := by
  simp [processLines, h, he]

theorem processLines_other (et line : String) (rest : List String)
    (h : pyStrip line ≠ "") (he : pyStarts (pyStrip line) "event:" = false)
    (hd : pyStarts (pyStrip line) "data:" = false) :
    processLines et (line :: rest) = processLines et rest := by
  simp [processLines, h, he, hd]

theorem processLines_data_skip (et line : String) (rest : List String)
    (h : pyStrip line ≠ "") (he : pyStarts (pyStrip line) "event:" = false)
    (hd : pyStarts (pyStrip line) "data:" = true)
    (hk : pyStrip (pyDrop (pyStrip line) 5) = "" ∨
          pyStrip (pyDrop (pyStrip line) 5) = "keep-alive") :
    processLines et (line :: rest) = processLines et rest := by
  rcases hk with hk | hk <;> simp [processLines, h, he, hd, hk]

theorem processLines_data_term (et line : String) (rest : List String) (e : QbitEvent)
    (h : pyStrip line ≠ "") (he : pyStarts (pyStrip line) "event:" = false)
    (hd : pyStarts (pyStrip line) "data:" = true)
    (h1 : pyStrip (pyDrop (pyStrip line) 5) ≠ "")
    (h2 : pyStrip (pyDrop (pyStrip line) 5) ≠ "keep-alive")
    (hp : QbitEvent.from_sse et (pyStrip (pyDrop (pyStrip line) 5)) = some e)
    (ht : e.is_terminal = true) :
    processLines et (line :: rest) = ([e], .terminal) := by
  simp [processLines, h, he, hd, h1, h2, hp, ht]

theorem processLines_data_yield (et line : String) (rest : List String) (e : QbitEvent)
    (h : pyStrip line ≠ "") (he : pyStarts (pyStrip line) "event:" = false)
    (hd : pyStarts (pyStrip line) "data:" = true)
    (h1 : pyStrip (pyDrop (pyStrip line) 5) ≠ "")
    (h2 : pyStrip (pyDrop (pyStrip line) 5) ≠ "keep-alive")
    (hp : QbitEvent.from_sse et (pyStrip (pyDrop (pyStrip line) 5)) = some e)
    (ht : e.is_terminal = false) :
    processLines et (line :: rest) =
      (e :: (processLines et rest).1, (processLines et rest).2) := by
  simp [processLines, h, he, hd, h1, h2, hp, ht]

theorem processLines_data_raise (et line : String) (rest : List String)
    (h : pyStrip line ≠ "") (he : pyStarts (pyStrip line) "event:" = false)
    (hd : pyStarts (pyStrip line) "data:" = true)
    (h1 : pyStrip (pyDrop (pyStrip line) 5) ≠ "")
    (h2 : pyStrip (pyDrop (pyStrip line) 5) ≠ "keep-alive")
    (hp : QbitEvent.from_sse et (pyStrip (pyDrop (pyStrip line) 5)) = none) :
    processLines et (line :: rest) = ([], .raised) := by
  simp [processLines, h, he, hd, h1, h2, hp]

theorem stateAfter_blank (et line : String) (rest : List String)
    (h : pyStrip line = "") : stateAfter et (line :: rest) = stateAfter et rest := by
  simp [stateAfter, h]

theorem stateAfter_event (et line : String) (rest : List String)
    (h : pyStrip line ≠ "") (he : pyStarts (pyStrip line) "event:" = true) :
    stateAfter et (line :: rest) = stateAfter (pyStrip (pyDrop (pyStrip line) 6)) rest := by
  simp [stateAfter, h, he]

theorem stateAfter_other (et line : String) (rest : List String)
    (h : pyStrip line ≠ "") (he : pyStarts (pyStrip line) "event:" = false) :
    stateAfter et (line :: rest) = stateAfter et rest := by
  simp [stateAfter, h, he]

/-! ### Structure of the line loop -/

/-- While the loop has not returned early, processing decomposes over
append, with the current event type carried by `stateAfter`. -/
theorem processLines_append_eof : ∀ (pre : List String) (et : String) (suf : List String),
    (processLines et pre).2 = .eof →
    processLines et (pre ++ suf) =
      ((processLines et pre).1 ++ (processLines (stateAfter et pre) suf).1,
       (processLines (stateAfter et pre) suf).2) := by
  intro pre
  induction pre with
  | nil => intro et suf _; simp [processLines, stateAfter]
  | cons line rest ih =>
    intro et suf h
    rw [List.cons_append]
    by_cases hb : pyStrip line = ""
    · rw [processLines_blank _ _ _ hb] at h ⊢
      rw [processLines_blank _ _ _ hb, stateAfter_blank _ _ _ hb]
      exact ih et suf h
    · cases he : pyStarts (pyStrip line) "event:" with
      | true =>
        rw [processLines_event _ _ _ hb he] at h ⊢
        rw [processLines_event _ _ _ hb he, stateAfter_event _ _ _ hb he]
        exact ih _ suf h
      | false =>
        rw [stateAfter_other _ _ _ hb he]
        cases hd : pyStarts (pyStrip line) "data:" with
        | false =>
          rw [processLines_other _ _ _ hb he hd] at h ⊢
          rw [processLines_other _ _ _ hb he hd]
          exact ih et suf h
        | true =>
          by_cases hk1 : pyStrip (pyDrop (pyStrip line) 5) = ""
          · rw [processLines_data_skip _ _ _ hb he hd (Or.inl hk1)] at h ⊢
            rw [processLines_data_skip _ _ _ hb he hd (Or.inl hk1)]
            exact ih et suf h
          · by_cases hk2 : pyStrip (pyDrop (pyStrip line) 5) = "keep-alive"
            · rw [processLines_data_skip _ _ _ hb he hd (Or.inr hk2)] at h ⊢
              rw [processLines_data_skip _ _ _ hb he hd (Or.inr hk2)]
              exact ih et suf h
            · cases hp : QbitEvent.from_sse et (pyStrip (pyDrop (pyStrip line) 5)) with
              | none =>
                rw [processLines_data_raise _ _ _ hb he hd hk1 hk2 hp] at h
                simp at h
              | some e =>
                cases ht : e.is_terminal with
                | true =>
                  rw [processLines_data_term _ _ _ _ hb he hd hk1 hk2 hp ht] at h
                  simp at h
                | false =>
                  rw [processLines_data_yield _ _ _ _ hb he hd hk1 hk2 hp ht] at h ⊢
                  rw [processLines_data_yield _ _ _ _ hb he hd hk1 hk2 hp ht]
                  rw [ih et suf h]
                  simp

/-- Once the loop has returned at a terminal event, any further lines of
the raw stream are irrelevant. -/
theorem processLines_append_terminal : ∀ (pre : List String) (et : String) (suf : List String),
    (processLines et pre).2 = .terminal →
    processLines et (pre ++ suf) = processLines et pre := by
  intro pre
  induction pre with
  | nil => intro et suf h; simp [processLines] at h
  | cons line rest ih =>
    intro et suf h
    rw [List.cons_append]
    by_cases hb : pyStrip line = ""
    · rw [processLines_blank _ _ _ hb] at h ⊢
      rw [processLines_blank _ _ _ hb]
      exact ih et suf h
    · cases he : pyStarts (pyStrip line) "event:" with
      | true =>
        rw [processLines_event _ _ _ hb he] at h ⊢
        rw [processLines_event _ _ _ hb he]
        exact ih _ suf h
      | false =>
        cases hd : pyStarts (pyStrip line) "data:" with
        | false =>
          rw [processLines_other _ _ _ hb he hd] at h ⊢
          rw [processLines_other _ _ _ hb he hd]
          exact ih et suf h
        | true =>
          by_cases hk1 : pyStrip (pyDrop (pyStrip line) 5) = ""
          · rw [processLines_data_skip _ _ _ hb he hd (Or.inl hk1)] at h ⊢
            rw [processLines_data_skip _ _ _ hb he hd (Or.inl hk1)]
            exact ih et suf h
          · by_cases hk2 : pyStrip (pyDrop (pyStrip line) 5) = "keep-alive"
            · rw [processLines_data_skip _ _ _ hb he hd (Or.inr hk2)] at h ⊢
              rw [processLines_data_skip _ _ _ hb he hd (Or.inr hk2)]
              exact ih et suf h
            · cases hp : QbitEvent.from_sse et (pyStrip (pyDrop (pyStrip line) 5)) with
              | none =>
                rw [processLines_data_raise _ _ _ hb he hd hk1 hk2 hp] at h
                simp at h
              | some e =>
                cases ht : e.is_terminal with
                | true =>
                  rw [processLines_data_term _ _ _ _ hb he hd hk1 hk2 hp ht]
                  rw [processLines_data_term _ _ _ _ hb he hd hk1 hk2 hp ht]
                | false =>
                  rw [processLines_data_yield _ _ _ _ hb he hd hk1 hk2 hp ht] at h ⊢
                  rw [processLines_data_yield _ _ _ _ hb he hd hk1 hk2 hp ht]
                  rw [ih et suf h]

/-- Every yielded event except possibly the last is non-terminal. -/
theorem processLines_dropLast_nonterminal :
    ∀ (lines : List String) (et : String) (e : QbitEvent),
      e ∈ (processLines et lines).1.dropLast → e.is_terminal = false := by
  intro lines
  induction lines with
  | nil => intro et e he; simp [processLines] at he
  | cons line rest ih =>
    intro et e he
    by_cases hb : pyStrip line = ""
    · rw [processLines_blank _ _ _ hb] at he; exact ih et e he
    · cases hev : pyStarts (pyStrip line) "event:" with
      | true =>
        rw [processLines_event _ _ _ hb hev] at he; exact ih _ e he
      | false =>
        cases hd : pyStarts (pyStrip line) "data:" with
        | false =>
          rw [processLines_other _ _ _ hb hev hd] at he; exact ih et e he
        | true =>
          by_cases hk1 : pyStrip (pyDrop (pyStrip line) 5) = ""
          · rw [processLines_data_skip _ _ _ hb hev hd (Or.inl hk1)] at he
            exact ih et e he
          · by_cases hk2 : pyStrip (pyDrop (pyStrip line) 5) = "keep-alive"
            · rw [processLines_data_skip _ _ _ hb hev hd (Or.inr hk2)] at he
              exact ih et e he
            · cases hp : QbitEvent.from_sse et (pyStrip (pyDrop (pyStrip line) 5)) with
              | none =>
                rw [processLines_data_raise _ _ _ hb hev hd hk1 hk2 hp] at he
                simp at he
              | some e' =>
                cases ht : e'.is_terminal with
                | true =>
                  rw [processLines_data_term _ _ _ _ hb hev hd hk1 hk2 hp ht] at he
                  simp at he
                | false =>
                  rw [processLines_data_yield _ _ _ _ hb hev hd hk1 hk2 hp ht] at he
                  cases hl : (processLines et rest).1 with
                  | nil => rw [hl] at he; simp at he
                  | cons x xs =>
                    rw [hl, List.dropLast_cons₂] at he
                    rcases List.mem_cons.mp he with rfl | hmem
                    · exact ht
                    · rw [← hl] at hmem; exact ih et e hmem

/-- If the loop ran to EOF, every yielded event is non-terminal. -/
theorem processLines_eof_nonterminal :
    ∀ (lines : List String) (et : String), (processLines et lines).2 = .eof →
      ∀ e ∈ (processLines et lines).1, e.is_terminal = false := by
  intro lines
  induction lines with
  | nil => intro et _ e he; simp [processLines] at he
  | cons line rest ih =>
    intro et h e he
    by_cases hb : pyStrip line = ""
    · rw [processLines_blank _ _ _ hb] at h he; exact ih et h e he
    · cases hev : pyStarts (pyStrip line) "event:" with
      | true =>
        rw [processLines_event _ _ _ hb hev] at h he; exact ih _ h e he
      | false =>
        cases hd : pyStarts (pyStrip line) "data:" with
        | false =>
          rw [processLines_other _ _ _ hb hev hd] at h he; exact ih et h e he
        | true =>
          by_cases hk1 : pyStrip (pyDrop (pyStrip line) 5) = ""
          · rw [processLines_data_skip _ _ _ hb hev hd (Or.inl hk1)] at h he
            exact ih et h e he
          · by_cases hk2 : pyStrip (pyDrop (pyStrip line) 5) = "keep-alive"
            · rw [processLines_data_skip _ _ _ hb hev hd (Or.inr hk2)] at h he
              exact ih et h e he
            · cases hp : QbitEvent.from_sse et (pyStrip (pyDrop (pyStrip line) 5)) with
              | none =>
                rw [processLines_data_raise _ _ _ hb hev hd hk1 hk2 hp] at h
                simp at h
              | some e' =>
                cases ht : e'.is_terminal with
                | true =>
                  rw [processLines_data_term _ _ _ _ hb hev hd hk1 hk2 hp ht] at h
                  simp at h
                | false =>
                  rw [processLines_data_yield _ _ _ _ hb hev hd hk1 hk2 hp ht] at h he
                  rcases List.mem_cons.mp he with rfl | hmem
                  · exact ht
                  · exact ih et h e hmem

/-- A line starting with `data:` does not start with `event:` (the
`elif` chain tests `event:` first). -/
theorem pyStarts_data_not_event (t : String) (h : pyStarts t "data:" = true) :
    pyStarts t "event:" = false := by
  unfold pyStarts at h ⊢
  have hdl : ("data:" : String).toList = ['d', 'a', 't', 'a', ':'] := rfl
  have hel : ("event:" : String).toList = ['e', 'v', 'e', 'n', 't', ':'] := rfl
  rw [hdl] at h
  rw [hel]
  cases hc : t.toList with
  | nil => rw [hc] at h; simp [listStarts] at h
  | cons c cs =>
    rw [hc] at h
    simp [listStarts] at h
    simp [listStarts, h.1]

/-- A line starting with `data:` is not blank. -/
theorem pyStarts_data_ne_empty (t : String) (h : pyStarts t "data:" = true) : t ≠ "" := by
  intro hteq
  rw [hteq] at h
  exact absurd h (by decide)

/-- A transport no-op line is skipped by the loop without producing an
event and without being JSON-decoded. -/
theorem processLines_noise (et n : String) (rest : List String) (hn : isNoise n = true) :
    processLines et (n :: rest) = processLines et rest := by
  unfold isNoise at hn
  simp only [Bool.or_eq_true, Bool.and_eq_true, Bool.not_eq_true', decide_eq_true_eq] at hn
  rcases hn with (hb | ⟨hd, hk⟩) | ⟨hev, hd⟩
  · exact processLines_blank et n rest hb
  · exact processLines_data_skip et n rest (pyStarts_data_ne_empty _ hd)
      (pyStarts_data_not_event _ hd) hd (Or.inr hk)
  · by_cases hb : pyStrip n = ""
    · exact processLines_blank et n rest hb
    · exact processLines_other et n rest hb hev hd

/-- Inserting transport no-op lines anywhere leaves the processing of
the stream unchanged. -/
theorem processLines_noiseInsert :
    ∀ {xs ys : List String}, NoiseInsert xs ys →
      ∀ et, processLines et ys = processLines et xs := by
  intro xs ys hni
  induction hni with
  | nil => intro _; rfl
  | keep l h ih =>
    intro et
    by_cases hb : pyStrip l = ""
    · rw [processLines_blank _ _ _ hb, processLines_blank _ _ _ hb]; exact ih et
    · cases hev : pyStarts (pyStrip l) "event:" with
      | true =>
        rw [processLines_event _ _ _ hb hev, processLines_event _ _ _ hb hev]
        exact ih _
      | false =>
        cases hd : pyStarts (pyStrip l) "data:" with
        | false =>
          rw [processLines_other _ _ _ hb hev hd, processLines_other _ _ _ hb hev hd]
          exact ih et
        | true =>
          by_cases hk1 : pyStrip (pyDrop (pyStrip l) 5) = ""
          · rw [processLines_data_skip _ _ _ hb hev hd (Or.inl hk1),
                processLines_data_skip _ _ _ hb hev hd (Or.inl hk1)]
            exact ih et
          · by_cases hk2 : pyStrip (pyDrop (pyStrip l) 5) = "keep-alive"
            · rw [processLines_data_skip _ _ _ hb hev hd (Or.inr hk2),
                  processLines_data_skip _ _ _ hb hev hd (Or.inr hk2)]
              exact ih et
            · cases hp : QbitEvent.from_sse et (pyStrip (pyDrop (pyStrip l) 5)) with
              | none =>
                rw [processLines_data_raise _ _ _ hb hev hd hk1 hk2 hp,
                    processLines_data_raise _ _ _ hb hev hd hk1 hk2 hp]
              | some e =>
                cases ht : e.is_terminal with
                | true =>
                  rw [processLines_data_term _ _ _ _ hb hev hd hk1 hk2 hp ht,
                      processLines_data_term _ _ _ _ hb hev hd hk1 hk2 hp ht]
                | false =>
                  rw [processLines_data_yield _ _ _ _ hb hev hd hk1 hk2 hp ht,
                      processLines_data_yield _ _ _ _ hb hev hd hk1 hk2 hp ht, ih et]
  | noise n hn h ih =>
    intro et
    rw [processLines_noise et n _ hn]
    exact ih et

/-- The loop's current event type is the fold of the `event:` lines seen
so far. -/
theorem stateAfter_eq_foldl : ∀ (lines : List String) (et : String),
    stateAfter et lines =
      ((lines.map pyStrip).filter (fun t => pyStarts t "event:")).foldl
        (fun _ t => pyStrip (pyDrop t 6)) et := by
  intro lines
  induction lines with
  | nil => intro et; rfl
  | cons line rest ih =>
    intro et
    by_cases hb : pyStrip line = ""
    · rw [stateAfter_blank _ _ _ hb]
      have : pyStarts (pyStrip line) "event:" = false := by
        rw [hb]; decide
      simp [List.filter_cons, this, ih et]
    · cases hev : pyStarts (pyStrip line) "event:" with
      | true =>
        rw [stateAfter_event _ _ _ hb hev]
        simp [List.filter_cons, hev, ih]
      | false =>
        rw [stateAfter_other _ _ _ hb hev]
        simp [List.filter_cons, hev, ih et]

/-- Scan characterization of the `execute_simple` loop body: its result
is determined by the first `completed`-or-`error` event. -/
theorem simpleOfEvents_eq_find : ∀ evs : List QbitEvent,
    simpleOfEvents evs =
      match evs.find? (fun e => e.event.eqStr "completed" || e.event.eqStr "error") with
      | some e =>
        some (if e.event.eqStr "completed" = true
              then SimpleResult.ok ((lookupKey "response" e.data).getD (.str ""))
              else SimpleResult.execError (lookupKey "message" e.data))
      | none => none := by
  intro evs
  induction evs with
  | nil => rfl
  | cons e rest ih =>
    cases hc : e.event.eqStr "completed" with
    | true => simp [simpleOfEvents, List.find?_cons, hc]
    | false =>
      cases herr : e.event.eqStr "error" with
      | true => simp [simpleOfEvents, List.find?_cons, hc, herr]
      | false => simp [simpleOfEvents, List.find?_cons, hc, herr, ih]

/-- If no event is `completed` or `error`, the scan is exhausted. -/
theorem simpleOfEvents_none : ∀ evs : List QbitEvent,
    (∀ e ∈ evs, e.event.eqStr "completed" = false ∧ e.event.eqStr "error" = false) →
    simpleOfEvents evs = none := by
  intro evs h
  induction evs with
  | nil => rfl
  | cons e rest ih =>
    have he := h e (List.mem_cons_self e rest)
    simp [simpleOfEvents, he.1, he.2]
    exact ih (fun x hx => h x (List.mem_cons_of_mem e hx))

/-! ### Structure of the retry loop -/

theorem executeLoop_connFail_retry (mr : Nat) (rd : ℚ) (r : Nat) (restA : List Attempt)
    (h : r + 1 ≤ mr) :
    executeLoop mr rd r (.connFail :: restA) =
      ⟨(executeLoop mr rd (r + 1) restA).events,
       rd * ((r + 1 : Nat) : ℚ) :: (executeLoop mr rd (r + 1) restA).sleeps,
       (executeLoop mr rd (r + 1) restA).outcome⟩ := by
  simp [executeLoop, show ¬ (r + 1 > mr) by omega]

theorem executeLoop_connFail_exhausted (mr : Nat) (rd : ℚ) (r : Nat) (restA : List Attempt)
    (h : r + 1 > mr) :
    executeLoop mr rd r (.connFail :: restA) = ⟨[], [], .raisedConn⟩ := by
  simp [executeLoop, h]

/-- A 2xx response with a well-formed body returns normally, yielding
the processed events, regardless of later attempts. -/
theorem executeLoop_stream_ok (mr : Nat) (rd : ℚ) (r : Nat) (lines : List String)
    (restA : List Attempt) (h : (processLines "message" lines).2 ≠ .raised) :
    executeLoop mr rd r (.stream 200 lines false :: restA) =
      ⟨(processLines "message" lines).1, [], .normal⟩ := by
  have h200 : is2xx 200 := by constructor <;> omega
  rcases hp : (processLines "message" lines).2 with _ | _ | _
  · simp [executeLoop, h200, hp]
  · simp [executeLoop, h200, hp]
  · exact absurd hp h

/-- Running the loop through `N` connection failures that stay within
the retry budget: one sleep per failure, then the rest of the transport
with the counter advanced. -/
theorem executeLoop_replicate_within : ∀ (N mr : Nat) (rd : ℚ) (r : Nat) (restA : List Attempt),
    r + N ≤ mr →
    executeLoop mr rd r (List.replicate N .connFail ++ restA) =
      ⟨(executeLoop mr rd (r + N) restA).events,
       (List.range N).map (fun i => rd * ((r + i + 1 : Nat) : ℚ)) ++
         (executeLoop mr rd (r + N) restA).sleeps,
       (executeLoop mr rd (r + N) restA).outcome⟩ := by
  intro N
  induction N with
  | zero => intro mr rd r restA _; simp
  | succ n ihn =>
    intro mr rd r restA h
    rw [List.replicate_succ, List.cons_append]
    rw [executeLoop_connFail_retry mr rd r _ (by omega)]
    rw [ihn mr rd (r + 1) restA (by omega)]
    have harith : r + 1 + n = r + (n + 1) := by omega
    rw [harith]
    refine congrArg (fun s => ExecResult.mk _ s _) ?_
    rw [List.range_succ_eq_map, List.map_cons, List.map_map]
    simp only [List.cons_append]
    refine congrArg₂ (fun (a : ℚ) (l : List ℚ) => a :: l) (by norm_num) ?_
    refine congrArg (fun l => l ++ _) ?_
    refine List.map_congr_left ?_
    intro i _
    have : r + 1 + i + 1 = r + Nat.succ i + 1 := by omega
    simp [Function.comp, this]

/-- Running the loop through enough connection failures to exhaust the
budget: `max_retries - r` sleeps, then the error propagates with no
events yielded. -/
theorem executeLoop_replicate_exhausted : ∀ (N mr : Nat) (rd : ℚ) (r : Nat) (restA : List Attempt),
    r ≤ mr → mr < r + N →
    executeLoop mr rd r (List.replicate N .connFail ++ restA) =
      ⟨[], (List.range (mr - r)).map (fun i => rd * ((r + i + 1 : Nat) : ℚ)), .raisedConn⟩ := by
  intro N
  induction N with
  | zero => intro mr rd r restA h1 h2; omega
  | succ n ihn =>
    intro mr rd r restA h1 h2
    rw [List.replicate_succ, List.cons_append]
    by_cases hr : r + 1 > mr
    · rw [executeLoop_connFail_exhausted mr rd r _ hr]
      have : mr - r = 0 := by omega
      simp [this]
    · rw [executeLoop_connFail_retry mr rd r _ (by omega)]
      rw [ihn mr rd (r + 1) restA (by omega) (by omega)]
      refine congrArg (fun s => ExecResult.mk _ s _) ?_
      have hmr : mr - r = (mr - (r + 1)) + 1 := by omega
      rw [hmr, List.range_succ_eq_map, List.map_cons, List.map_map]
      refine congrArg₂ (fun (a : ℚ) (l : List ℚ) => a :: l) (by norm_num) ?_
      refine List.map_congr_left ?_
      intro i _
      have : r + 1 + i + 1 = r + Nat.succ i + 1 := by omega
      simp [Function.comp, this]

/-! ### Characterizations of the event predicates -/

theorem Json.eqStr_iff (v : Json) (s : String) : v.eqStr s = true ↔ v = .str s := by
  cases v <;> simp [Json.eqStr]

theorem optEqStr_iff (o : Option Json) (s : String) :
    optEqStr o s = true ↔ o = some (.str s) := by
  cases o <;> simp [optEqStr, Json.eqStr_iff]

/-- `is_terminal` holds exactly for `completed`, `error` and the
`custom`/`stream_end` workaround. -/
theorem is_terminal_iff (e : QbitEvent) :
    e.is_terminal = true ↔
      (e.event = .str "completed" ∨ e.event = .str "error" ∨
        (e.event = .str "custom" ∧ lookupKey "name" e.data = some (.str "stream_end"))) := by
  unfold QbitEvent.is_terminal
  split_ifs with h1 h2
  · simp only [Bool.or_eq_true, Json.eqStr_iff] at h1
    simp only [true_iff]
    tauto
  · simp only [Bool.and_eq_true, Json.eqStr_iff, optEqStr_iff] at h2
    simp only [true_iff]
    tauto
  · simp only [Bool.or_eq_true, Json.eqStr_iff] at h1
    simp only [Bool.and_eq_true, Json.eqStr_iff, optEqStr_iff] at h2
    simp only [false_iff]
    tauto

/-- Looking one key up is unaffected by erasing a different key. -/
theorem lookupKey_eraseKey_ne (k k' : String) (h : k ≠ k') :
    ∀ ps : List (String × Json), lookupKey k (eraseKey k' ps) = lookupKey k ps := by
  intro ps
  induction ps with
  | nil => rfl
  | cons p rest ih =>
    obtain ⟨k0, v0⟩ := p
    by_cases h0 : k0 = k'
    · subst h0
      simp [eraseKey, lookupKey, Ne.symm h]
    · simp [eraseKey, lookupKey, h0, ih]

/-- At the `execute` level as well, every yielded event except possibly
the last is non-terminal. -/
theorem executeLoop_dropLast_nonterminal :
    ∀ (attempts : List Attempt) (mr : Nat) (rd : ℚ) (r : Nat),
      ∀ e ∈ (executeLoop mr rd r attempts).events.dropLast, e.is_terminal = false := by
  intro attempts
  induction attempts with
  | nil => intro mr rd r e he; simp [executeLoop] at he
  | cons a restA ih =>
    intro mr rd r e he
    cases a with
    | connFail =>
      by_cases hr : r + 1 > mr
      · rw [executeLoop_connFail_exhausted _ _ _ _ hr] at he
        simp at he
      · rw [executeLoop_connFail_retry _ _ _ _ (by omega)] at he
        exact ih mr rd (r + 1) e he
    | stream status lines midFail =>
      by_cases hs : is2xx status
      · rcases hp : (processLines "message" lines).2 with _ | _ | _
        · cases midFail with
          | false =>
            simp only [executeLoop, if_pos hs, hp] at he
            exact processLines_eof_nonterminal lines "message" hp e
              (List.dropLast_subset _ he)
          | true =>
            by_cases hr : r + 1 > mr
            · simp only [executeLoop, if_pos hs, hp, if_pos hr, if_true] at he
              exact processLines_eof_nonterminal lines "message" hp e
                (List.dropLast_subset _ he)
            · simp only [executeLoop, if_pos hs, hp, if_neg hr, if_true] at he
              rcases hres : (executeLoop mr rd (r + 1) restA).events with _ | ⟨x, xs⟩
              · rw [hres, List.append_nil] at he
                exact processLines_eof_nonterminal lines "message" hp e
                  (List.dropLast_subset _ he)
              · rw [hres, List.dropLast_append_cons] at he
                rcases List.mem_append.mp he with hmem | hmem
                · exact processLines_eof_nonterminal lines "message" hp e hmem
                · rw [← hres] at hmem
                  exact ih mr rd (r + 1) e hmem
        · simp only [executeLoop, if_pos hs, hp] at he
          exact processLines_dropLast_nonterminal lines "message" e he
        · simp only [executeLoop, if_pos hs, hp] at he
          exact processLines_dropLast_nonterminal lines "message" e he
      · simp only [executeLoop, if_neg hs] at he
        simp at he

/-! ### The claims -/

/-- C1: On the example input stream (`started`, `text_delta`,
`completed`), `execute` yields exactly three events in order with types
`started`, `text_delta` and `completed`; the third event's
`is_terminal` predicate is true and the loop returns at it (terminal
stop rather than EOF); and `execute_simple` on this input returns the
string `"4"`. -/
theorem C1_example_stream :
    execute 3 1 [Attempt.stream 200 exampleLines false] =
      { events := [⟨.str "started", .num 1000, [("turn_id", .str "t1")]⟩,
                   ⟨.str "text_delta", .num 1001, [("delta", .str "4")]⟩,
                   ⟨.str "completed", .num 1002,
                      [("response", .str "4"), ("duration_ms", .num 2)]⟩],
        sleeps := [], outcome := .normal } ∧
    (QbitEvent.mk (.str "completed") (.num 1002)
        [("response", .str "4"), ("duration_ms", .num 2)]).is_terminal = true ∧
    (processLines "message" exampleLines).2 = .terminal ∧
    execute_simple 3 1 [Attempt.stream 200 exampleLines false] = .ok (.str "4") :=
  ⟨rfl, rfl, rfl, rfl⟩

/-- C2: Once the loop has yielded a terminal event — `completed`,
`error`, or `custom` with `data.name == "stream_end"`, and exactly
those — it stops reading: the remaining lines of the stream are
irrelevant, and across all of `execute` no yielded event other than the
last is terminal. -/
theorem C2_terminal_halts :
    (∀ (et : String) (pre suf : List String), (processLines et pre).2 = .terminal →
        processLines et (pre ++ suf) = processLines et pre) ∧
    (∀ (max_retries : Nat) (retry_delay : ℚ) (attempts : List Attempt),
        ∀ e ∈ (execute max_retries retry_delay attempts).events.dropLast,
          e.is_terminal = false) ∧
    (∀ e : QbitEvent, e.is_terminal = true ↔
        (e.event = .str "completed" ∨ e.event = .str "error" ∨
          (e.event = .str "custom" ∧ lookupKey "name" e.data = some (.str "stream_end")))) :=
  ⟨fun et pre suf h => processLines_append_terminal pre et suf h,
   fun mr rd att e he => executeLoop_dropLast_nonterminal att mr rd 0 e he,
   is_terminal_iff⟩

theorem C2_witness :
    processLines "message"
        (["data: \x7b\"event\":\"completed\",\"timestamp\":7\x7d"] ++
         ["data: \x7b\"event\":\"started\",\"timestamp\":8\x7d"]) =
      processLines "message" ["data: \x7b\"event\":\"completed\",\"timestamp\":7\x7d"] ∧
    (QbitEvent.mk (.str "started") (.num 1) []).is_terminal = false ∧
    (QbitEvent.mk (.str "custom") (.num 3) [("name", .str "stream_end")]).is_terminal = true :=
  ⟨C2_terminal_halts.1 "message" _ _ rfl,
   C2_terminal_halts.2.1 3 1
     [Attempt.stream 200
       ["data: \x7b\"event\":\"started\",\"timestamp\":1\x7d",
        "data: \x7b\"event\":\"completed\",\"timestamp\":2\x7d"] false]
     _ (List.mem_singleton.mpr rfl),
   (C2_terminal_halts.2.2 _).mpr (Or.inr (Or.inr ⟨rfl, rfl⟩))⟩

/-- C3: `N` consecutive connection failures followed by a good stream:
within the retry budget (`N ≤ max_retries`) the loop sleeps
`retry_delay * attempt_number` after each failure (linear backoff) and
the final attempt yields the real event sequence; past the budget
(`N > max_retries`) the transport error propagates after
`max_retries` sleeps with no events yielded. -/
theorem C3_retry_backoff :
    ∀ (max_retries : Nat) (retry_delay : ℚ) (N : Nat) (lines : List String),
      (processLines "message" lines).2 ≠ .raised →
      (N ≤ max_retries →
        execute max_retries retry_delay
            (List.replicate N Attempt.connFail ++ [Attempt.stream 200 lines false]) =
          { events := (processLines "message" lines).1,
            sleeps := (List.range N).map (fun i => retry_delay * ((i + 1 : Nat) : ℚ)),
            outcome := .normal }) ∧
      (max_retries < N →
        execute max_retries retry_delay
            (List.replicate N Attempt.connFail ++ [Attempt.stream 200 lines false]) =
          { events := [],
            sleeps := (List.range max_retries).map
              (fun i => retry_delay * ((i + 1 : Nat) : ℚ)),
            outcome := .raisedConn }) := by
  intro mr rd N lines hs
  constructor
  · intro hN
    unfold execute
    rw [executeLoop_replicate_within N mr rd 0 _ (by omega)]
    rw [executeLoop_stream_ok mr rd (0 + N) lines [] hs]
    simp
  · intro hN
    unfold execute
    rw [executeLoop_replicate_exhausted N mr rd 0 _ (by omega) (by omega)]
    simp

theorem C3_witness :
    execute 3 1 (List.replicate 2 Attempt.connFail ++
        [Attempt.stream 200 ["data: \x7b\"event\":\"completed\",\"response\":\"ok\"\x7d"] false]) =
      { events :=
          (processLines "message" ["data: \x7b\"event\":\"completed\",\"response\":\"ok\"\x7d"]).1,
        sleeps := (List.range 2).map (fun i => 1 * ((i + 1 : Nat) : ℚ)),
        outcome := .normal } ∧
    execute 3 1 (List.replicate 5 Attempt.connFail ++
        [Attempt.stream 200 ["data: \x7b\"event\":\"completed\",\"response\":\"ok\"\x7d"] false]) =
      { events := [],
        sleeps := (List.range 3).map (fun i => 1 * ((i + 1 : Nat) : ℚ)),
        outcome := .raisedConn } :=
  ⟨(C3_retry_backoff 3 1 2 _ (by decide)).1 (by decide),
   (C3_retry_backoff 3 1 5 _ (by decide)).2 (by decide)⟩

/-- C4: A non-2xx response raises an HTTP status error immediately
after the headers (`raise_for_status`), with no retry attempts, no
sleeps and no yielded events, regardless of the rest of the transport:
only connection-level errors enter the retry path. -/
theorem C4_http_status_no_retry :
    ∀ (max_retries : Nat) (retry_delay : ℚ) (status : Nat) (lines : List String)
      (midFail : Bool) (restA : List Attempt),
      ¬ is2xx status →
      execute max_retries retry_delay (Attempt.stream status lines midFail :: restA) =
        { events := [], sleeps := [], outcome := .raisedStatus status } := by
  intro mr rd status lines mf restA h
  simp [execute, executeLoop, h]

theorem C4_witness :
    execute 3 1 [Attempt.stream 404 ["data: \x7b\"event\":\"completed\"\x7d"] false] =
      { events := [], sleeps := [], outcome := .raisedStatus 404 } :=
  C4_http_status_no_retry 3 1 404 ["data: \x7b\"event\":\"completed\"\x7d"] false [] (by decide)

/-- C5: A `data:` body lacking `event` takes the most recently seen
`event:` line value as its type (`"message"` if none was seen: the
loop state equals the spec's fold of `event:` lines, and processing
decomposes along it); a body lacking `timestamp` gets timestamp `0`;
and both keys are popped so that the event's `data` map is exactly the
remaining fields. -/
theorem C5_field_fallbacks :
    (∀ (et : String) (ps : List (String × Json)), lookupKey "event" ps = none →
        (QbitEvent.from_sse_obj et ps).event = .str et) ∧
    (∀ (et : String) (ps : List (String × Json)), lookupKey "timestamp" ps = none →
        (QbitEvent.from_sse_obj et ps).timestamp = .num 0) ∧
    (∀ (et : String) (ps : List (String × Json)),
        (QbitEvent.from_sse_obj et ps).data = eraseKey "timestamp" (eraseKey "event" ps)) ∧
    (∀ lines : List String, stateAfter "message" lines = lastEventTypeSpec lines) ∧
    (∀ (et : String) (pre suf : List String), (processLines et pre).2 = .eof →
        processLines et (pre ++ suf) =
          ((processLines et pre).1 ++ (processLines (stateAfter et pre) suf).1,
           (processLines (stateAfter et pre) suf).2)) := by
  refine ⟨?_, ?_, ?_, ?_, ?_⟩
  · intro et ps h
    simp [QbitEvent.from_sse_obj, h]
  · intro et ps h
    have hl := lookupKey_eraseKey_ne "timestamp" "event" (by decide) ps
    rw [h] at hl
    simp [QbitEvent.from_sse_obj, hl]
  · intro et ps
    rfl
  · intro lines
    rw [stateAfter_eq_foldl]
    rfl
  · exact fun et pre suf h => processLines_append_eof pre et suf h

theorem C5_witness :
    (QbitEvent.from_sse_obj "text_delta"
        [("timestamp", .num 1001), ("delta", .str "4")]).event = .str "text_delta" ∧
    (QbitEvent.from_sse_obj "started" [("turn_id", .str "t1")]).timestamp = .num 0 ∧
    (QbitEvent.from_sse_obj "x"
        [("event", .str "y"), ("timestamp", .num 3), ("k", .null)]).data =
      eraseKey "timestamp"
        (eraseKey "event" [("event", Json.str "y"), ("timestamp", Json.num 3), ("k", Json.null)]) ∧
    stateAfter "message" ["event: tool_call", "data: \x7b\"a\":1\x7d"] =
      lastEventTypeSpec ["event: tool_call", "data: \x7b\"a\":1\x7d"] ∧
    processLines "message" (["event: tool_call"] ++ ["data: \x7b\"a\":1\x7d"]) =
      ((processLines "message" ["event: tool_call"]).1 ++
        (processLines (stateAfter "message" ["event: tool_call"]) ["data: \x7b\"a\":1\x7d"]).1,
       (processLines (stateAfter "message" ["event: tool_call"]) ["data: \x7b\"a\":1\x7d"]).2) :=
  ⟨C5_field_fallbacks.1 _ _ rfl, C5_field_fallbacks.2.1 _ _ rfl,
   C5_field_fallbacks.2.2.1 _ _, C5_field_fallbacks.2.2.2.1 _,
   C5_field_fallbacks.2.2.2.2 "message" _ _ rfl⟩

/-- C6: Inserting any number of keep-alive `data:` lines, blank lines,
or lines with other prefixes between the real frames leaves the yielded
event sequence (and the way the loop ends) unchanged. -/
theorem C6_keepalive_transparency :
    ∀ (et : String) (xs ys : List String),
      NoiseInsert xs ys → processLines et ys = processLines et xs :=
  fun et _ _ h => processLines_noiseInsert h et

theorem C6_witness :
    processLines "message"
        ["", "data: keep-alive", "event: started", ": comment line",
         "data: \x7b\"event\":\"completed\",\"timestamp\":2\x7d", "data: keep-alive"] =
      processLines "message"
        ["event: started", "data: \x7b\"event\":\"completed\",\"timestamp\":2\x7d"] :=
  C6_keepalive_transparency "message" _ _
    (.noise "" (by rfl)
      (.noise "data: keep-alive" (by rfl)
        (.keep "event: started"
          (.noise ": comment line" (by rfl)
            (.keep "data: \x7b\"event\":\"completed\",\"timestamp\":2\x7d"
              (.noise "data: keep-alive" (by rfl) .nil))))))

/-- C7: `execute_simple` is determined by the first `completed` or
`error` event of the sequence `execute` produces — the `response` field
(default `""`) for `completed`, a `RuntimeError` from the `message`
field for `error` — and raises the final `RuntimeError` when the
sequence is exhausted with neither, including when the stream ended via
the `custom`/`stream_end` terminal. -/
theorem C7_execute_simple_semantics :
    (∀ evs : List QbitEvent,
        simpleOfEvents evs =
          match evs.find? (fun e => e.event.eqStr "completed" || e.event.eqStr "error") with
          | some e =>
            some (if e.event.eqStr "completed" = true
                  then SimpleResult.ok ((lookupKey "response" e.data).getD (.str ""))
                  else SimpleResult.execError (lookupKey "message" e.data))
          | none => none) ∧
    (∀ (max_retries : Nat) (retry_delay : ℚ) (attempts : List Attempt),
        (∀ e ∈ (execute max_retries retry_delay attempts).events,
            e.event.eqStr "completed" = false ∧ e.event.eqStr "error" = false) →
        (execute max_retries retry_delay attempts).outcome = .normal →
        execute_simple max_retries retry_delay attempts = .noCompletion) := by
  refine ⟨simpleOfEvents_eq_find, ?_⟩
  intro mr rd att h ho
  simp only [execute_simple]
  rw [simpleOfEvents_none _ h, ho]

theorem C7_witness :
    execute_simple 3 1
        [Attempt.stream 200 ["data: \x7b\"event\":\"custom\",\"name\":\"stream_end\"\x7d"] false] =
      .noCompletion :=
  C7_execute_simple_semantics.2 3 1 _ (by decide) rfl

/-- C8: A stream that reaches EOF with no terminal event yielded makes
`execute` return normally with the events parsed so far (and indeed
every event of such a stream is non-terminal): truncation is not
reported as an error. -/
theorem C8_eof_returns_normally :
    (∀ (max_retries : Nat) (retry_delay : ℚ) (lines : List String),
        (processLines "message" lines).2 = .eof →
        execute max_retries retry_delay [Attempt.stream 200 lines false] =
          { events := (processLines "message" lines).1, sleeps := [],
            outcome := .normal }) ∧
    (∀ (et : String) (lines : List String), (processLines et lines).2 = .eof →
        ∀ e ∈ (processLines et lines).1, e.is_terminal = false) := by
  constructor
  · intro mr rd lines h
    unfold execute
    exact executeLoop_stream_ok mr rd 0 lines [] (by simp [h])
  · exact fun et lines h e he => processLines_eof_nonterminal lines et h e he

theorem C8_witness :
    execute 3 1 [Attempt.stream 200
        ["event: text_delta", "data: \x7b\"timestamp\":5,\"delta\":\"x\"\x7d"] false] =
      { events := (processLines "message"
          ["event: text_delta", "data: \x7b\"timestamp\":5,\"delta\":\"x\"\x7d"]).1,
        sleeps := [], outcome := .normal } ∧
    (QbitEvent.mk (.str "text_delta") (.num 5) [("delta", .str "x")]).is_terminal = false :=
  ⟨C8_eof_returns_normally.1 3 1 _ rfl,
   C8_eof_returns_normally.2 "message"
     ["event: text_delta", "data: \x7b\"timestamp\":5,\"delta\":\"x\"\x7d"] rfl
     _ (List.mem_singleton.mpr rfl)⟩

/-- C9 counterexample: calling `health` on a client that was never
initialized (outside the `async with` scope) raises the `client`
property's `RuntimeError` — so `health()` as such can raise, refuting
"never raises an exception to its caller". -/
theorem C9_health_counterexample :
    health false .requestError = .raisedRuntime ∧
    health false .requestError ≠ .ok false ∧ health false .requestError ≠ .ok true := by
  decide

/-- C9 amended: provided the client is initialized, `health` returns
true iff the endpoint responds 200, swallows transport failures as
false and never raises; on an uninitialized client it raises the
`client` property's `RuntimeError`. -/
theorem C9_health_amended :
    (∀ code : Nat, health true (.status code) = .ok true ↔ code = 200) ∧
    (∀ code : Nat, code ≠ 200 → health true (.status code) = .ok false) ∧
    health true .requestError = .ok false ∧
    (∀ t : HealthTransport, health false t = .raisedRuntime) := by
  refine ⟨?_, ?_, rfl, ?_⟩
  · intro c
    simp [health]
  · intro c h
    have hb : (c == 200) = false := beq_eq_false_iff_ne.mpr h
    simp [health, hb]
  · intro t
    rfl

theorem C9_witness :
    health true (.status 404) = .ok false ∧ health true (.status 200) = .ok true :=
  ⟨C9_health_amended.2.1 404 (by decide), (C9_health_amended.1 200).mpr rfl⟩

/-- C10: The request body contains `timeout_secs` only when the
argument is truthy: `0` and `None` both omit the field (so they are
indistinguishable), a nonzero value is transmitted, and a zero timeout
value never appears in any payload. -/
theorem C10_timeout_truthiness :
    (∀ p : String, buildPayload p (some 0) = buildPayload p none) ∧
    (∀ p : String, lookupKey "timeout_secs" (buildPayload p (some 0)) = none) ∧
    (∀ (p : String) (t : Int), t ≠ 0 →
        lookupKey "timeout_secs" (buildPayload p (some t)) = some (.num t)) ∧
    (∀ (p : String) (ts : Option Int), ("timeout_secs", Json.num 0) ∉ buildPayload p ts) := by
  have hne : ("prompt" : String) ≠ "timeout_secs" := by decide
  refine ⟨fun p => rfl, fun p => ?_, ?_, ?_⟩
  · simp [buildPayload, lookupKey, hne]
  · intro p t h
    simp [buildPayload, lookupKey, h, hne]
  · intro p ts hmem
    cases ts with
    | none =>
      simp only [buildPayload, List.mem_singleton, Prod.mk.injEq] at hmem
      exact absurd hmem.1 (Ne.symm hne)
    | some t =>
      by_cases h0 : t = 0
      · subst h0
        simp only [buildPayload, ne_eq, not_true_eq_false, if_false, List.mem_singleton,
          Prod.mk.injEq] at hmem
        exact absurd hmem.1 (Ne.symm hne)
      · simp only [buildPayload, ne_eq, h0, not_false_eq_true, if_true, List.mem_append,
          List.mem_singleton, Prod.mk.injEq] at hmem
        rcases hmem with hmem | hmem
        · exact absurd hmem.1 (Ne.symm hne)
        · exact h0 (Json.num.inj hmem.2).symm

theorem C10_witness :
    lookupKey "timeout_secs" (buildPayload "What is 2+2?" (some 30)) = some (.num 30) :=
  C10_timeout_truthiness.2.2.1 "What is 2+2?" 30 (by decide)

end QbitHttp

